import Mathlib

/-!
Shallow embedding of the asokapy HomePlug-AV outlet controller
(files `asokapy/pib.py` and `asokapy/device.py`).

Conventions used throughout:
* Python `bytes` values are `List Nat`, one entry per byte.
* Python exceptions (`struct.error` on a short unpack, `AssertionError`,
  `IndexError`) are modelled by `Option`: a `none` result is a raised
  exception; `some` is a normal return.
* `time.time()` becomes an explicit `now : Nat` argument.  Every time
  comparison in the source has the shape `stored < now - const` or
  `const < now - stored` with a non-negative `stored`, for which truncated
  natural subtraction agrees with exact subtraction.
* Outbound frames become an emitted `Msg` list; the server (`server.py`)
  is outside the embedded core except for its `_interface_mac_bytes`
  value, which is passed to `packet_homeplug` explicitly.
-/

namespace Asokapy

/-- Little-endian 32-bit word of four bytes (`struct.unpack` with format `<I`). -/
def le32 (b0 b1 b2 b3 : Nat) : Nat :=
  b0 + 256 * b1 + 65536 * b2 + 16777216 * b3

/-- Little-endian 16-bit word of two bytes (`struct.unpack` with format `<H`). -/
def le16 (b0 b1 : Nat) : Nat := b0 + 256 * b1

/-- `struct.pack` with format `<I`: the four little-endian bytes of a 32-bit value. -/
def le32enc (v : Nat) : List Nat :=
  [v % 256, v / 256 % 256, v / 65536 % 256, v / 16777216 % 256]

/-- The accumulation loop of `PIB.calc_cksum`: XOR of consecutive
little-endian u32 words, each step masked to 32 bits as in
`(cksum ^ word) & (2**32-1)`.  A trailing group of fewer than four bytes
makes `struct.unpack` raise, modelled by `none`.  (XOR is commutative and
associative, so folding from the right as done here computes the same
word as the source's left-to-right loop.) -/
def xorFold : List Nat → Option Nat
  | [] => some 0
  | b0 :: b1 :: b2 :: b3 :: rest =>
      (xorFold rest).map (fun c => (le32 b0 b1 b2 b3 ^^^ c) % 4294967296)
  | _ :: _ => none

/-- `PIB.calc_cksum`: bitwise-NOT of the XOR fold, masked to 32 bits
(`(~cksum) & (2**32-1)`, which for a 32-bit `cksum` is `cksum XOR 0xFFFFFFFF`). -/
def calc_cksum (data : List Nat) : Option Nat :=
  (xorFold data).map (fun c => (c ^^^ 4294967295) % 4294967296)

/-- `PIB.size()`: little-endian u16 at offsets 4..5 (the declared total size). -/
def pib_size (pib : List Nat) : Nat := le16 (pib.getD 4 0) (pib.getD 5 0)

/-- The assertions of the `PIB` constructor: `len(pib) > 8` and
`len(pib) <= size()`.  `none` is the raised `AssertionError`. -/
def mkPIB (pib : List Nat) : Option (List Nat) :=
  if 8 < pib.length ∧ pib.length ≤ pib_size pib then some pib else none

/-- `PIB.is_complete()`. -/
def is_complete (pib : List Nat) : Bool := pib.length == pib_size pib

/-- `PIB.is_valid()`: the whole-buffer checksum equals 0.  Raises
(`none`) when the buffer length is not a multiple of four. -/
def is_valid (pib : List Nat) : Option Bool :=
  (calc_cksum pib).map (fun c => c == 0)

/-- `PIB.master_get()`: the slice `[0x2c8a:0x2c90]`. -/
def master_get (pib : List Nat) : List Nat := (pib.drop 0x2c8a).take 6

/-- `PIB.master_replace(newmac_bytes)`: zero the checksum word, splice the
new master MAC at `0x2c8a`, recompute the checksum into bytes 8..11, then
assert validity and re-run the `PIB` constructor checks. -/
def master_replace (pib newmac : List Nat) : Option (List Nat) :=
  let pib_data := pib.take 8 ++ [0, 0, 0, 0] ++
    (pib.drop 12).take (0x2c8a - 12) ++ newmac ++ pib.drop 0x2c90
  (calc_cksum pib_data).bind fun c =>
    let new_pib := pib_data.take 8 ++ le32enc c ++ pib_data.drop 12
    (calc_cksum new_pib).bind fun c2 =>
      if c2 = 0 then mkPIB new_pib else none

/-! ### Checksum lemmas -/

lemma xorFold_lt {l : List Nat} {x : Nat} (h : xorFold l = some x) :
    x < 4294967296 := by
  rcases l with _ | ⟨b0, _ | ⟨b1, _ | ⟨b2, _ | ⟨b3, rest⟩⟩⟩⟩
  · have hx : (0 : Nat) = x := Option.some.inj h
    omega
  · exact Option.noConfusion h
  · exact Option.noConfusion h
  · exact Option.noConfusion h
  · simp only [xorFold, Option.map_eq_some'] at h
    obtain ⟨y, _, hy⟩ := h
    omega

lemma xorFold_length {l : List Nat} {x : Nat} (h : xorFold l = some x) :
    l.length % 4 = 0 := by
  induction l using xorFold.induct generalizing x with
  | case1 => simp
  | case2 b0 b1 b2 b3 rest ih =>
    simp only [xorFold, Option.map_eq_some'] at h
    obtain ⟨y, hy, _⟩ := h
    have := ih hy
    simp only [List.length_cons]
    omega
  | case3 head tail hne =>
    exfalso
    rcases tail with _ | ⟨a, _ | ⟨b, _ | ⟨c, rest⟩⟩⟩
    · exact Option.noConfusion h
    · exact Option.noConfusion h
    · exact Option.noConfusion h
    · exact hne a b c rest rfl

lemma xorFold_total {l : List Nat} (h : l.length % 4 = 0) :
    ∃ x, xorFold l = some x := by
  induction l using xorFold.induct with
  | case1 => exact ⟨0, rfl⟩
  | case2 b0 b1 b2 b3 rest ih =>
    have hr : rest.length % 4 = 0 := by
      simp only [List.length_cons] at h
      omega
    obtain ⟨y, hy⟩ := ih hr
    exact ⟨(le32 b0 b1 b2 b3 ^^^ y) % 4294967296, by simp [xorFold, hy]⟩
  | case3 head tail hne =>
    exfalso
    rcases tail with _ | ⟨a, _ | ⟨b, _ | ⟨c, rest⟩⟩⟩
    · simp at h
    · simp at h
    · simp [List.length_cons] at h
    · exact hne a b c rest rfl

lemma xor_mod_two_pow_32 (a y : Nat) (hy : y < 4294967296) :
    a % 4294967296 ^^^ y = (a ^^^ y) % 4294967296 := by
  have h32 : (4294967296 : Nat) = 2 ^ 32 := by norm_num
  rw [h32] at hy ⊢
  apply Nat.eq_of_testBit_eq
  intro i
  rw [Nat.testBit_xor, Nat.testBit_mod_two_pow, Nat.testBit_mod_two_pow, Nat.testBit_xor]
  rcases lt_or_ge i 32 with hi | hi
  · simp [hi]
  · have hyb : y.testBit i = false :=
      Nat.testBit_lt_two_pow (lt_of_lt_of_le hy (Nat.pow_le_pow_right (by norm_num) hi))
    simp [Nat.not_lt.mpr hi, hyb]

lemma xorFold_append {a b : List Nat} {x y : Nat}
    (ha : xorFold a = some x) (hb : xorFold b = some y) :
    xorFold (a ++ b) = some (x ^^^ y) := by
  induction a using xorFold.induct generalizing x with
  | case1 =>
    have hx : (0 : Nat) = x := Option.some.inj ha
    subst hx
    simpa [Nat.zero_xor] using hb
  | case2 b0 b1 b2 b3 rest ih =>
    simp only [xorFold, Option.map_eq_some'] at ha
    obtain ⟨x', hx', hx⟩ := ha
    have hr := ih hx'
    have hyb : y < 4294967296 := xorFold_lt hb
    rw [List.cons_append, List.cons_append, List.cons_append, List.cons_append]
    simp only [xorFold]
    rw [hr, Option.map_some', ← hx, xor_mod_two_pow_32 _ _ hyb, Nat.xor_assoc]
  | case3 head tail hne =>
    exfalso
    rcases tail with _ | ⟨a1, _ | ⟨b1, _ | ⟨c1, rest⟩⟩⟩
    · exact Option.noConfusion ha
    · exact Option.noConfusion ha
    · exact Option.noConfusion ha
    · exact hne a1 b1 c1 rest rfl

lemma xorFold_le32enc {v : Nat} (h : v < 4294967296) :
    xorFold (le32enc v) = some v := by
  have : le32 (v % 256) (v / 256 % 256) (v / 65536 % 256) (v / 16777216 % 256) = v := by
    unfold le32
    omega
  simp [le32enc, xorFold, this, Nat.xor_zero, Nat.mod_eq_of_lt h]

lemma xorFold_replicate_zero : ∀ n, xorFold (List.replicate (4 * n) 0) = some 0 := by
  intro n
  induction n with
  | zero => rfl
  | succ m ih =>
    have h4 : 4 * (m + 1) = 4 + 4 * m := by ring
    rw [h4, List.replicate_add]
    have : (List.replicate 4 (0 : Nat)) = [0, 0, 0, 0] := rfl
    rw [this]
    simp [xorFold, ih, le32]

lemma xor_lt_32 {a b : Nat} (ha : a < 4294967296) (hb : b < 4294967296) :
    a ^^^ b < 4294967296 := by
  have h32 : (4294967296 : Nat) = 2 ^ 32 := by norm_num
  rw [h32] at ha hb ⊢
  exact Nat.xor_lt_two_pow ha hb

lemma xor_shuffle (a b M : Nat) : a ^^^ (((a ^^^ b) ^^^ M) ^^^ b) = M := by
  rw [Nat.xor_assoc a b M, Nat.xor_assoc a (b ^^^ M) b, Nat.xor_cancel_left,
    Nat.xor_comm b M, Nat.xor_assoc M b b, Nat.xor_self, Nat.xor_zero]

lemma splice_take8 {u rest : List Nat} (hu : u.length = 8) :
    (u ++ rest).take 8 = u := by
  rw [List.take_append_eq_append_take, hu]
  simp [List.take_of_length_le (le_of_eq hu)]

lemma splice_drop12 {u m v : List Nat} (hu : u.length = 8) (hm : m.length = 4) :
    (u ++ (m ++ v)).drop 12 = v := by
  rw [List.drop_append_eq_append_drop, List.drop_eq_nil_of_le (by omega), hu,
    List.drop_append_eq_append_drop, List.drop_eq_nil_of_le (by omega), hm]
  simp

lemma getD_take8_append (pib rest : List Nat) {n : Nat} (hn : n < 8)
    (h8 : 8 ≤ pib.length) (d : Nat) :
    (pib.take 8 ++ rest).getD n d = pib.getD n d := by
  rw [List.getD_eq_getElem?_getD, List.getD_eq_getElem?_getD,
    List.getElem?_append_left (by simp [List.length_take]; omega),
    List.getElem?_take]
  simp [hn]

lemma pib_size_take8_append (pib rest : List Nat) (h8 : 8 ≤ pib.length) :
    pib_size (pib.take 8 ++ rest) = pib_size pib := by
  unfold pib_size le16
  rw [getD_take8_append pib rest (by omega) h8, getD_take8_append pib rest (by omega) h8]

/-- The mathematical content of `master_replace`: on any buffer of length
at least `0x2c90` and a multiple of four, with declared size bounding the
length and a six-byte replacement MAC, all internal assertions pass and
the result is a checksum-valid buffer of the same length and declared
size. -/
lemma master_replace_spec (pib mac : List Nat)
    (h4 : pib.length % 4 = 0) (hlen : 11408 ≤ pib.length)
    (hsz : pib.length ≤ pib_size pib) (hmac : mac.length = 6) :
    ∃ r, master_replace pib mac = some r ∧ calc_cksum r = some 0 ∧
      r.length = pib.length ∧ pib_size r = pib_size pib := by
  have hu : (pib.take 8).length = 8 := by simp [List.length_take]; omega
  have hB : ((pib.drop 12).take (0x2c8a - 12)).length = 11390 := by
    simp [List.length_take, List.length_drop]
    omega
  have hC : (pib.drop 0x2c90).length = pib.length - 11408 := by
    simp [List.length_drop]
  -- the fold of the three pieces
  obtain ⟨fu, hfu⟩ := xorFold_total (l := pib.take 8) (by rw [hu])
  have hmid : xorFold [0, 0, 0, 0] = some 0 := by decide
  obtain ⟨fv, hfv⟩ := xorFold_total
    (l := (pib.drop 12).take (0x2c8a - 12) ++ (mac ++ pib.drop 0x2c90))
    (by simp [List.length_append, hB, hC, hmac]; omega)
  have hfu32 := xorFold_lt hfu
  have hfv32 := xorFold_lt hfv
  have hfd : xorFold (pib.take 8 ++ ([0, 0, 0, 0] ++
      ((pib.drop 12).take (0x2c8a - 12) ++ (mac ++ pib.drop 0x2c90)))) =
      some (fu ^^^ fv) := by
    have h1 := xorFold_append hmid hfv
    rw [Nat.zero_xor] at h1
    exact xorFold_append hfu h1
  have hc32 : (fu ^^^ fv) ^^^ 4294967295 < 4294967296 :=
    xor_lt_32 (xor_lt_32 hfu32 hfv32) (by norm_num)
  have hpd_eq : pib.take 8 ++ [0, 0, 0, 0] ++
      (pib.drop 12).take (0x2c8a - 12) ++ mac ++ pib.drop 0x2c90 =
      pib.take 8 ++ ([0, 0, 0, 0] ++
      ((pib.drop 12).take (0x2c8a - 12) ++ (mac ++ pib.drop 0x2c90))) := by
    simp [List.append_assoc]
  have hcd2 : calc_cksum (pib.take 8 ++ ([0, 0, 0, 0] ++
      ((pib.drop 12).take (0x2c8a - 12) ++ (mac ++ pib.drop 0x2c90)))) =
      some ((fu ^^^ fv) ^^^ 4294967295) := by
    unfold calc_cksum
    rw [hfd, Option.map_some', Nat.mod_eq_of_lt hc32]
  -- the new buffer and its fold
  have ht8 : (pib.take 8 ++ ([0, 0, 0, 0] ++
      ((pib.drop 12).take (0x2c8a - 12) ++ (mac ++ pib.drop 0x2c90)))).take 8 =
      pib.take 8 := splice_take8 hu
  have hd12 : (pib.take 8 ++ ([0, 0, 0, 0] ++
      ((pib.drop 12).take (0x2c8a - 12) ++ (mac ++ pib.drop 0x2c90)))).drop 12 =
      (pib.drop 12).take (0x2c8a - 12) ++ (mac ++ pib.drop 0x2c90) :=
    splice_drop12 hu (by simp)
  have henc : xorFold (le32enc ((fu ^^^ fv) ^^^ 4294967295)) =
      some ((fu ^^^ fv) ^^^ 4294967295) := xorFold_le32enc hc32
  have hnew : xorFold (pib.take 8 ++ (le32enc ((fu ^^^ fv) ^^^ 4294967295) ++
      ((pib.drop 12).take (0x2c8a - 12) ++ (mac ++ pib.drop 0x2c90)))) =
      some 4294967295 := by
    have h2 := xorFold_append henc hfv
    have h3 := xorFold_append hfu h2
    rw [xor_shuffle fu fv 4294967295] at h3
    exact h3
  have hckn : calc_cksum ((pib.take 8 ++ le32enc ((fu ^^^ fv) ^^^ 4294967295)) ++
      ((pib.drop 12).take (0x2c8a - 12) ++ (mac ++ pib.drop 0x2c90))) = some 0 := by
    rw [List.append_assoc]
    unfold calc_cksum
    rw [hnew, Option.map_some', Nat.xor_self]
  have hrlen : ((pib.take 8 ++ le32enc ((fu ^^^ fv) ^^^ 4294967295)) ++
      ((pib.drop 12).take (0x2c8a - 12) ++ (mac ++ pib.drop 0x2c90))).length =
      pib.length := by
    simp only [List.length_append, hu, hB, hC, hmac, le32enc, List.length_cons,
      List.length_nil]
    omega
  have hrsize : pib_size ((pib.take 8 ++ le32enc ((fu ^^^ fv) ^^^ 4294967295)) ++
      ((pib.drop 12).take (0x2c8a - 12) ++ (mac ++ pib.drop 0x2c90))) =
      pib_size pib := by
    rw [List.append_assoc]
    exact pib_size_take8_append pib _ (by omega)
  have hmain : master_replace pib mac =
      some ((pib.take 8 ++ le32enc ((fu ^^^ fv) ^^^ 4294967295)) ++
        ((pib.drop 12).take (0x2c8a - 12) ++ (mac ++ pib.drop 0x2c90))) := by
    simp only [master_replace]
    rw [hpd_eq, hcd2]
    simp only [Option.some_bind]
    rw [ht8, hd12, hckn]
    simp only [Option.some_bind, if_true]
    unfold mkPIB
    rw [if_pos ⟨by rw [hrlen]; omega, by rw [hrlen, hrsize]; exact hsz⟩]
  exact ⟨_, hmain, hckn, hrlen, hrsize⟩

/-! ### Claim C4: the XOR checksum is self-inverse -/

/-- C4: for every byte string `buf` whose length is a multiple of four
(equivalently: on which `calc_cksum` computes a value `c`), appending the
four little-endian bytes of `c` and re-applying `calc_cksum` yields 0. -/
theorem C4_cksum_self_inverse (buf : List Nat) (c : Nat)
    (h : calc_cksum buf = some c) :
    calc_cksum (buf ++ le32enc c) = some 0 := by
  obtain ⟨f, hf, hc⟩ := Option.map_eq_some'.mp h
  have hf32 := xorFold_lt hf
  have hcval : c = f ^^^ 4294967295 := by
    rw [← hc, Nat.mod_eq_of_lt (xor_lt_32 hf32 (by norm_num))]
  have hc32 : c < 4294967296 := by
    rw [hcval]
    exact xor_lt_32 hf32 (by norm_num)
  have happ := xorFold_append hf (xorFold_le32enc hc32)
  unfold calc_cksum
  rw [happ, Option.map_some', hcval, Nat.xor_cancel_left, Nat.xor_self]

/-- C4 witness: a concrete four-byte buffer. -/
theorem C4_witness :
    calc_cksum [1, 2, 3, 4] = some 4227661310 ∧
    calc_cksum ([1, 2, 3, 4] ++ le32enc 4227661310) = some 0 :=
  ⟨by decide, C4_cksum_self_inverse [1, 2, 3, 4] 4227661310 (by decide)⟩

/-! ### Claim C1: validity of `master_replace` -/

/-- A complete, checksum-valid 12-byte PIB (declared size 12 at bytes
4..5, checksum word `0xFFFFFFF3` at bytes 8..11).  It satisfies every
`PIB` constructor invariant, yet `master_replace` raises on it: the
spliced buffer has length 18, not a multiple of four. -/
def smallPIB : List Nat := [0, 0, 0, 0, 12, 0, 0, 0, 243, 255, 255, 255]

/-- C1 counterexample: `smallPIB` is a complete valid PIB, but
`master_replace` on it raises (returns `none`) instead of returning a
PIB on which `is_valid` holds. -/
theorem C1_counterexample :
    is_complete smallPIB = true ∧ is_valid smallPIB = some true ∧
    master_replace smallPIB [1, 2, 3, 4, 5, 6] = none := by decide

/-- C1 (amended): for every complete valid PIB of length at least
`0x2c90` (so that the master-MAC field at `0x2c8a` lies inside the
buffer) and every 6-byte MAC, `master_replace` returns a PIB on which
`is_valid` holds. -/
theorem C1_master_replace_valid (pib mac : List Nat)
    (hcomp : is_complete pib = true) (hval : is_valid pib = some true)
    (hlen : 11408 ≤ pib.length) (hmac : mac.length = 6) :
    ∃ r, master_replace pib mac = some r ∧ is_valid r = some true := by
  have hck : calc_cksum pib = some 0 := by
    unfold is_valid at hval
    obtain ⟨c, hc, hceq⟩ := Option.map_eq_some'.mp hval
    have hc0 : c = 0 := by simpa using hceq
    rw [hc0] at hc
    exact hc
  have h4 : pib.length % 4 = 0 := by
    obtain ⟨f, hf, _⟩ := Option.map_eq_some'.mp hck
    exact xorFold_length hf
  have hsz : pib.length ≤ pib_size pib := by
    have hc' : pib.length = pib_size pib := by simpa [is_complete] using hcomp
    omega
  obtain ⟨r, hr, hrck, _, _⟩ := master_replace_spec pib mac h4 hlen hsz hmac
  exact ⟨r, hr, by simp [is_valid, hrck]⟩

/-- A synthetic complete valid 11408-byte PIB: declared size `0x2c90` at
bytes 4..5, checksum word `0xFFFFD36F` at bytes 8..11, every other byte
zero (so in particular its master-MAC field is `00:00:00:00:00:00`). -/
def testPIB : List Nat :=
  [0, 0, 0, 0, 144, 44, 0, 0, 111, 211, 255, 255] ++ List.replicate 11396 0

lemma testPIB_length : testPIB.length = 11408 := by
  unfold testPIB
  rw [List.length_append, List.length_replicate]
  rfl

lemma testPIB_size : pib_size testPIB = 11408 := by
  unfold pib_size le16 testPIB
  rw [List.getD_eq_getElem?_getD, List.getD_eq_getElem?_getD,
    List.getElem?_append_left (by simp), List.getElem?_append_left (by simp)]
  rfl

lemma testPIB_complete : is_complete testPIB = true := by
  unfold is_complete
  rw [testPIB_length, testPIB_size]
  rfl

lemma xorFold_testPIB : xorFold testPIB = some 4294967295 := by
  have h1 : xorFold [0, 0, 0, 0, 144, 44, 0, 0, 111, 211, 255, 255] =
      some 4294967295 := by decide
  have h2 : xorFold (List.replicate 11396 0) = some 0 := by
    have h := xorFold_replicate_zero 2849
    norm_num at h
    exact h
  have h3 := xorFold_append h1 h2
  rw [Nat.xor_zero] at h3
  unfold testPIB
  exact h3

lemma testPIB_valid : is_valid testPIB = some true := by
  unfold is_valid calc_cksum
  rw [xorFold_testPIB]
  simp only [Option.map_some', Nat.xor_self]
  rfl

/-- C1 witness: the amended theorem applied to the synthetic complete
valid 11408-byte PIB and the MAC `01:02:03:04:05:06`. -/
theorem C1_witness :
    is_complete testPIB = true ∧ is_valid testPIB = some true ∧
    11408 ≤ testPIB.length ∧
    ∃ r, master_replace testPIB [1, 2, 3, 4, 5, 6] = some r ∧
      is_valid r = some true :=
  ⟨testPIB_complete, testPIB_valid, by simp [testPIB_length],
    C1_master_replace_valid testPIB [1, 2, 3, 4, 5, 6] testPIB_complete
      testPIB_valid (by simp [testPIB_length]) (by decide)⟩

/-! ### Device data model (`device.py`) -/

/-- The values stored in `device_unknown_tuple`: a Python 3-tuple
`(parts[1], parts[5], parts[6])` for blue (type "2") devices, the bare
string `parts[1]` for white (type "3") devices.  Distinct constructors
mirror the fact that a Python tuple never equals a string. -/
inductive Ident where
  | blue (p1 p5 p6 : String)
  | white (p1 : String)
deriving DecidableEq

/-- The values stored in `device_version`: `(parts[2], parts[7])` for
blue devices, the 1-tuple `(parts[2],)` for white devices. -/
inductive Ver where
  | blue (p2 p7 : String)
  | white (p2 : String)
deriving DecidableEq

/-- The six state namedtuples of the device state machine. -/
inductive DState where
  | Probing (last_sent num_sent : Nat)
  | ProbingHP (last_sent : Nat)
  | ReadPIB (start_time last_sent : Nat) (pib : List Nat)
  | WritePIB (start_time last_sent pib_current_offset : Nat) (pib : List Nat)
  | WritePIBToNVM (start_time last_sent : Nat)
  | Running (last_sent last_received : Nat)
deriving DecidableEq

/-- Outbound frames, identified by the `send_*` method that emits them
(the byte-level encodings of `send_hp_read_pib` etc. carry exactly these
parameters). -/
inductive Msg where
  | etherProbe
  | etherOn
  | etherOff
  | hpReadPib (offset length : Nat)
  | hpWritePib (offset : Nat) (chunk : List Nat)
  | hpWritePibToNvm
deriving DecidableEq

/-- The mutable attributes of a `Device`.  (`alias` is a Lean keyword,
hence the field name `alias_`.)  `device_power` keeps the raw ASCII text
of the reported power value: the source parses it with `float(...)` but
only ever stores and reports it. -/
structure Device where
  alias_ : Option String
  interval : Option Nat
  remote_mac : String
  state : DState
  want_on : Option Bool
  device_type : Option String
  device_version : Option Ver
  device_unknown_tuple : Option Ident
  device_power : Option String
  device_is_on : Option Bool
deriving DecidableEq

def probe_delay : Nat := 10
def max_probing_tries : Nat := 5
def pib_chunk : Nat := 1024
def pib_abort_time : Nat := 20
def running_abort_time : Nat := 20

/-- `Device.reset_state`: back to the initial Probing state, clearing
the observed power and on/off status and nothing else. -/
def reset_state (d : Device) : Device :=
  { d with state := .Probing 0 0, device_power := none, device_is_on := none }

/-- `Device.__init__`: the class-level attribute defaults plus
`reset_state()`. -/
def initDevice (remote_mac : String) : Device :=
  { alias_ := none, interval := none, remote_mac := remote_mac,
    state := .Probing 0 0, want_on := none, device_type := none,
    device_version := none, device_unknown_tuple := none,
    device_power := none, device_is_on := none }

/-- `Device.tick()`, with `time.time()` passed as `now`.  Returns the
updated device and the frames sent during the tick.  (The final
`assert False` of the source is unreachable: `DState` is exactly the six
state classes.) -/
def tick (d : Device) (now : Nat) : Device × List Msg :=
  match d.state with
  | .Probing last_sent num_sent =>
      if last_sent < now - probe_delay then
        if max_probing_tries ≤ num_sent then
          ({ d with state := .ProbingHP now }, [.etherProbe])
        else
          ({ d with state := .Probing now (num_sent + 1) }, [.etherProbe])
      else (d, [])
  | .ProbingHP last_sent =>
      if last_sent < now - probe_delay then
        ({ d with state := .ProbingHP now }, [.etherProbe, .hpReadPib 0 pib_chunk])
      else (d, [])
  | .Running last_sent last_received =>
      if d.device_is_on ≠ d.want_on ∧ d.want_on ≠ none then
        match d.want_on with
        | some true =>
            ({ d with device_is_on := none, state := .Running now last_received },
              [.etherOn])
        | some false =>
            ({ d with device_is_on := none, state := .Running now last_received },
              [.etherOff])
        | none => (d, [])
      else
        match d.interval with
        | none => (d, [])
        | some interval =>
            if running_abort_time < now - last_received then (reset_state d, [])
            else if last_sent < now - interval then
              ({ d with state := .Running now last_received }, [.etherProbe])
            else (d, [])
  | .ReadPIB start_time last_sent pib =>
      if start_time < now - pib_abort_time then (reset_state d, [])
      else if last_sent < now - probe_delay then
        ({ d with state := .ReadPIB start_time now pib },
          [.hpReadPib pib.length (min (pib_size pib - pib.length) pib_chunk)])
      else (d, [])
  | .WritePIB start_time last_sent off pib =>
      if start_time < now - pib_abort_time then (reset_state d, [])
      else if last_sent < now - probe_delay then
        ({ d with state := .WritePIB start_time now off pib },
          [.hpWritePib off ((pib.drop off).take pib_chunk)])
      else (d, [])
  | .WritePIBToNVM start_time last_sent =>
      if start_time < now - pib_abort_time then (reset_state d, [])
      else if last_sent < now - probe_delay then
        ({ d with state := .WritePIBToNVM start_time now }, [.hpWritePibToNvm])
      else (d, [])

/-- Fold `tick` over a list of tick times, collecting the emitted frames. -/
def runTicksMsgs : Device → List Nat → Device × List Msg
  | d, [] => (d, [])
  | d, t :: ts =>
      let r := tick d t
      let rest := runTicksMsgs r.1 ts
      (rest.1, r.2 ++ rest.2)

/-- The device after a sequence of ticks with no inbound frame. -/
def runTicks (d : Device) (ts : List Nat) : Device := (runTicksMsgs d ts).1

/-- `Device.receive_is_on`: clear `want_on` when the target (on) is
reached, record `device_is_on = True`.  (`report_data` goes to the
out-of-scope server.) -/
def receive_is_on (d : Device) : Device :=
  let d1 := if d.want_on = some true then { d with want_on := none } else d
  { d1 with device_is_on := some true }

/-- `Device.receive_is_off`: clear `want_on` when the target (off) is
reached, record `device_is_on = False`. -/
def receive_is_off (d : Device) : Device :=
  let d1 := if d.want_on = some false then { d with want_on := none } else d
  { d1 with device_is_on := some false }

/-- Python `str.split(';')`, written as structural recursion over the
character list (equivalent to `String.splitOn ";"`, which however does
not reduce inside the kernel). -/
def splitSemiAux : List Char → List Char → List String
  | [], acc => [String.mk acc.reverse]
  | c :: rest, acc =>
      if c = (';') then String.mk acc.reverse :: splitSemiAux rest []
      else splitSemiAux rest (c :: acc)

/-- `data.split(';')`. -/
def splitSemi (s : String) : List String := splitSemiAux s.data []

/-- The parsing prefix of `Device.receive_powerdata`: split on `;`,
assert the type and is_on fields, read the power text, and build the
per-type identification and version tuples.  `none` models a failed
assertion or an out-of-range `parts[i]` access (`IndexError`); the
`float(parts[4])` value is kept as its text. -/
def parse_powerdata (data : String) : Option (String × Bool × String × Ident × Ver) :=
  let parts := splitSemi data
  match parts.get? 0, parts.get? 3, parts.get? 4 with
  | some p0, some p3, some p4 =>
      if ¬ (p0 = ("2") ∨ p0 = ("3")) then none
      else if ¬ (p3 = ("0") ∨ p3 = ("1")) then none
      else
        let device_is_on := p3 == ("1")
        if p0 = ("2") then
          match parts.get? 1, parts.get? 2, parts.get? 5, parts.get? 6, parts.get? 7 with
          | some p1, some p2, some p5, some p6, some p7 =>
              some (p0, device_is_on, p4, .blue p1 p5 p6, .blue p2 p7)
          | _, _, _, _, _ => none
        else
          match parts.get? 1, parts.get? 2 with
          | some p1, some p2 => some (p0, device_is_on, p4, .white p1, .white p2)
          | _, _ => none
  | _, _, _ => none

/-- `Device.receive_powerdata`: parse, adopt first-seen identity fields,
hard-assert equality with the previously seen identity, then store power
and is_on.  `none` models a raised exception (assertion failure included);
the state machine state is never touched. -/
def receive_powerdata (d : Device) (data : String) : Option Device :=
  match parse_powerdata data with
  | none => none
  | some (ty, ison, pw, tup, ver) =>
      let d1 := if d.device_unknown_tuple = none then
        { d with device_unknown_tuple := some tup } else d
      let d2 := if d1.device_version = none then
        { d1 with device_version := some ver } else d1
      let d3 := if d2.device_type = none then
        { d2 with device_type := some ty } else d2
      if d3.device_unknown_tuple ≠ some tup then none
      else if d3.device_version ≠ some ver then none
      else if d3.device_type ≠ some ty then none
      else some { d3 with device_power := some pw, device_is_on := some ison }

/-- States in which HomePlugAV packets are expected. -/
def hp_state : DState → Bool
  | .ProbingHP _ | .ReadPIB _ _ _ | .WritePIB _ _ _ _ | .WritePIBToNVM _ _ => true
  | _ => false

/-- States expecting a Device Read Confirmation (0xa025). -/
def read_confirm_state : DState → Bool
  | .ProbingHP _ | .ReadPIB _ _ _ => true
  | _ => false

def write_pib_state : DState → Bool
  | .WritePIB _ _ _ _ => true
  | _ => false

def write_nvm_state : DState → Bool
  | .WritePIBToNVM _ _ => true
  | _ => false

/-- States in which vendor Ethernet payloads are expected. -/
def ether_state : DState → Bool
  | .Probing _ _ | .ProbingHP _ | .Running _ _ => true
  | _ => false

/-- `self.state.last_sent` (every state namedtuple carries one). -/
def state_last_sent : DState → Nat
  | .Probing ls _ => ls
  | .ProbingHP ls => ls
  | .ReadPIB _ ls _ => ls
  | .WritePIB _ ls _ _ => ls
  | .WritePIBToNVM _ ls => ls
  | .Running ls _ => ls

/-- The read-confirmation tail of `Device.packet_homeplug`, reached in
states ProbingHP and ReadPIB with action 0xa025 and status 0: unpack
`<BxxxBxHI` from the first 12 bytes (raising if fewer), check the module
and the chunk checksum over `data[12:]`, take the chunk
`data[16:16+length]`, and consume it according to the state. -/
def hp_read_confirm (d : Device) (now : Nat) (server_mac : List Nat)
    (data : List Nat) : Option Device :=
  if data.length < 12 then none
  else
    let module := data.getD 4 0
    let length := le16 (data.getD 6 0) (data.getD 7 0)
    let offset := le32 (data.getD 8 0) (data.getD 9 0) (data.getD 10 0) (data.getD 11 0)
    if module ≠ 2 then some d
    else match calc_cksum (data.drop 12) with
      | none => none
      | some ck =>
          if ck ≠ 0 then some d
          else
            let chunk := (data.drop 16).take length
            match d.state with
            | .ProbingHP _ =>
                if offset ≠ 0 then some d
                else (mkPIB chunk).map fun p =>
                  { d with state := .ReadPIB now 0 p }
            | .ReadPIB start_time _ pib =>
                if offset ≠ pib.length then some d
                else (mkPIB (pib ++ chunk)).bind fun newpib =>
                  if is_complete newpib then
                    match is_valid newpib with
                    | none => none
                    | some false => some (reset_state d)
                    | some true =>
                        if master_get newpib = server_mac then some (reset_state d)
                        else (master_replace newpib server_mac).map fun wp =>
                          { d with state := .WritePIB now 0 0 wp }
                  else some { d with state := .ReadPIB start_time 0 newpib }
            | _ => some d

/-- `Device.packet_homeplug(action, data)`, with the server's
`_interface_mac_bytes` passed explicitly.  The Python return value is
dropped; `none` models a raised exception, `some` a normal return. -/
def packet_homeplug (d : Device) (now : Nat) (server_mac : List Nat)
    (action : Nat) (data : List Nat) : Option Device :=
  if hp_state d.state = false then some d
  else if read_confirm_state d.state = true ∧ action ≠ 0xa025 then some d
  else if write_pib_state d.state = true ∧ action ≠ 0xa021 then some d
  else if write_nvm_state d.state = true ∧ action ≠ 0xa029 then some d
  else match data with
    | [] => none
    | status0 :: _ =>
        if status0 ≠ 0 then some d
        else match d.state with
          | .WritePIBToNVM _ _ => some (reset_state d)
          | .WritePIB start_time _ off pib =>
              if pib.length ≤ off + pib_chunk then
                some { d with state := .WritePIBToNVM now 0 }
              else
                some { d with state := .WritePIB start_time 0 (off + pib_chunk) pib }
          | .ProbingHP _ => hp_read_confirm d now server_mac data
          | .ReadPIB _ _ _ => hp_read_confirm d now server_mac data
          | _ => some d

/-- Python `bytes.decode('ascii').strip()`: raises on non-ASCII bytes;
the surrounding-whitespace trim matches Python on the whitespace
characters that actually occur in these frames. -/
def asciiDecodeStrip (bs : List Nat) : Option String :=
  if bs.all (fun b => b < 128) then
    some ((String.mk (bs.map (fun b => Char.ofNat b))).trim)
  else none

/-- The 64-byte message chunks `packet_data[msg_start:msg_start+64]` of
the `packet_ether` loop. -/
def chunks64 (l : List Nat) : List (List Nat) :=
  if h : l = [] then [] else l.take 64 :: chunks64 (l.drop 64)
termination_by l.length
decreasing_by
  simp only [List.length_drop]
  have h0 : 0 < l.length := List.length_pos.mpr h
  omega

/-- The message loop of `Device.packet_ether`: function 1 is a power
data report, functions 9 and 12 carry one on/off byte (with a hard
assertion that the message length byte is 1); anything else is printed
and skipped.  Each understood message also moves the state to
`Running(last_sent = self.state.last_sent, last_received = now)`. -/
def packet_ether_msgs (d : Device) (now : Nat) : List (List Nat) → Option Device
  | [] => some d
  | mdata :: rest =>
      let mdata_function := mdata.getD 0 0
      let mdata_length := mdata.getD 1 0
      let mdata_message := (mdata.drop 2).take mdata_length
      if mdata_function = 1 then
        match asciiDecodeStrip mdata_message with
        | none => none
        | some s =>
            match receive_powerdata d s with
            | none => none
            | some d1 =>
                packet_ether_msgs
                  { d1 with state := .Running (state_last_sent d1.state) now } now rest
      else if mdata_function = 9 ∨ mdata_function = 12 then
        if mdata_length ≠ 1 then none
        else match mdata_message.get? 0 with
          | none => none
          | some s0 =>
              let d1 := if s0 = 1 then receive_is_on d
                else if s0 = 0 then receive_is_off d else d
              packet_ether_msgs
                { d1 with state := .Running (state_last_sent d1.state) now } now rest
      else packet_ether_msgs d now rest

/-- `Device.packet_ether(data)`: header validation then the 64-byte
message loop.  `some d` with `d` unchanged is the `return False` of a
frame failing validation; `none` models a raised exception. -/
def packet_ether (d : Device) (now : Nat) (data : List Nat) : Option Device :=
  if data.length < 4 then some d
  else if ether_state d.state = false then some d
  else
    let length := data.getD 1 0
    if (data.drop 2).length ≠ length then some d
    else if length % 64 ≠ 0 then some d
    else packet_ether_msgs d now (chunks64 (data.drop 2))

/-! ### Claim C10: what `reset_state` touches -/

/-- C10: `reset_state` sets the machine state to the initial
`Probing{last_sent = 0, num_sent = 0}` and clears the observed power and
on/off status; every other attribute — device type, version, the
identification tuple, the pending `want_on` target, alias, polling
interval and the remote MAC — survives unchanged. -/
theorem C10_reset_state_effect (d : Device) :
    (reset_state d).state = .Probing 0 0 ∧
    (reset_state d).device_power = none ∧
    (reset_state d).device_is_on = none ∧
    (reset_state d).want_on = d.want_on ∧
    (reset_state d).device_type = d.device_type ∧
    (reset_state d).device_version = d.device_version ∧
    (reset_state d).device_unknown_tuple = d.device_unknown_tuple ∧
    (reset_state d).alias_ = d.alias_ ∧
    (reset_state d).interval = d.interval ∧
    (reset_state d).remote_mac = d.remote_mac := by
  simp [reset_state]

/-! ### Claim C3: WritePIB / WritePIBToNVM confirmations -/

/-- C3: in WritePIB a status-0 write confirmation advances
`pib_current_offset` by `pib_chunk` with `last_sent` reset to 0 (keeping
`start_time`), except that once `pib_current_offset + pib_chunk` reaches
`len(pib)` the state becomes `WritePIBToNVM{start_time = now,
last_sent = 0}`; and in WritePIBToNVM a status-0 NVM confirmation
returns the device to the initial Probing state. -/
theorem C3_write_confirms (d : Device) (now : Nat) (server_mac : List Nat)
    (rest : List Nat) :
    (∀ st ls off pib, d.state = .WritePIB st ls off pib →
      (pib.length ≤ off + pib_chunk →
        packet_homeplug d now server_mac 0xa021 (0 :: rest) =
          some { d with state := .WritePIBToNVM now 0 }) ∧
      (off + pib_chunk < pib.length →
        packet_homeplug d now server_mac 0xa021 (0 :: rest) =
          some { d with state := .WritePIB st 0 (off + pib_chunk) pib })) ∧
    (∀ st ls, d.state = .WritePIBToNVM st ls →
      packet_homeplug d now server_mac 0xa029 (0 :: rest) =
        some { d with
          state := .Probing 0 0
          device_power := none
          device_is_on := none }) := by
  constructor
  · intro st ls off pib hst
    constructor
    · intro hle
      simp [packet_homeplug, hst, hp_state, read_confirm_state, write_pib_state,
        write_nvm_state, hle]
    · intro hlt
      have hnle : ¬ pib.length ≤ off + pib_chunk := by omega
      simp [packet_homeplug, hst, hp_state, read_confirm_state, write_pib_state,
        write_nvm_state, hnle]
  · intro st ls hst
    simp [packet_homeplug, hst, hp_state, read_confirm_state, write_pib_state,
      write_nvm_state, reset_state]

/-- A 3000-byte all-zero buffer used as a concrete in-flight PIB. -/
def pibW : List Nat := List.replicate 3000 0

lemma pibW_length : pibW.length = 3000 := by
  rw [pibW, List.length_replicate]

/-- C3 witness: both write-confirm branches and the NVM confirmation at
concrete devices. -/
theorem C3_witness :
    packet_homeplug { initDevice ("aa") with
        state := .WritePIB 5 7 0 pibW } 99 [] 0xa021 [0] =
      some { initDevice ("aa") with
        state := .WritePIB 5 0 1024 pibW } ∧
    packet_homeplug { initDevice ("aa") with
        state := .WritePIB 5 7 2048 pibW } 99 [] 0xa021 [0] =
      some { initDevice ("aa") with state := .WritePIBToNVM 99 0 } ∧
    packet_homeplug { initDevice ("aa") with
        state := .WritePIBToNVM 5 7
        device_power := some ("1.0") } 99 [] 0xa029 [0] =
      some { initDevice ("aa") with state := .Probing 0 0 } := by
  refine ⟨?_, ?_, ?_⟩
  · exact ((C3_write_confirms { initDevice ("aa") with
      state := .WritePIB 5 7 0 pibW } 99 [] []).1
      5 7 0 pibW rfl).2 (by rw [pibW_length]; norm_num [pib_chunk])
  · exact ((C3_write_confirms { initDevice ("aa") with
      state := .WritePIB 5 7 2048 pibW } 99 [] []).1
      5 7 2048 pibW rfl).1 (by rw [pibW_length]; norm_num [pib_chunk])
  · exact (C3_write_confirms { initDevice ("aa") with
      state := .WritePIBToNVM 5 7
      device_power := some ("1.0") } 99 [] []).2 5 7 rfl

/-! ### Claim C6: PIB-phase timeout -/

/-- The `start_time` field of the three PIB-phase states. -/
def pib_start_time? : DState → Option Nat
  | .ReadPIB st _ _ => some st
  | .WritePIB st _ _ _ => some st
  | .WritePIBToNVM st _ => some st
  | _ => none

/-- Constructor tag of a state, used to say a tick stays in the same
phase. -/
def state_tag : DState → Nat
  | .Probing _ _ => 0
  | .ProbingHP _ => 1
  | .ReadPIB _ _ _ => 2
  | .WritePIB _ _ _ _ => 3
  | .WritePIBToNVM _ _ => 4
  | .Running _ _ => 5

/-- C6: in each of ReadPIB, WritePIB and WritePIBToNVM, a tick at a time
strictly beyond `start_time + pib_abort_time` resets the device to the
initial Probing state (clearing power/is_on); a tick at or before that
bound keeps the machine in the same phase with the same `start_time` —
so with no matching confirmation the phase ends at the first tick after
the abort bound, i.e. no later than `pib_abort_time` plus one tick
interval after entry. -/
theorem C6_pib_timeout (d : Device) (now st : Nat)
    (hst : pib_start_time? d.state = some st) :
    (st + pib_abort_time < now →
      (tick d now).1 = reset_state d ∧ (tick d now).2 = []) ∧
    (now ≤ st + pib_abort_time →
      state_tag (tick d now).1.state = state_tag d.state ∧
      pib_start_time? (tick d now).1.state = some st) := by
  cases hs : d.state with
  | Probing a b => rw [hs] at hst; exact Option.noConfusion hst
  | ProbingHP a => rw [hs] at hst; exact Option.noConfusion hst
  | Running a b => rw [hs] at hst; exact Option.noConfusion hst
  | ReadPIB a ls pib =>
    rw [hs] at hst
    simp only [pib_start_time?, Option.some.injEq] at hst
    subst hst
    constructor
    · intro h
      have h' : a + 20 < now := h
      have hc : a < now - pib_abort_time := by
        show a < now - 20
        omega
      simp [tick, hs, hc]
    · intro h
      have h' : now ≤ a + 20 := h
      have hc : ¬ a < now - pib_abort_time := by
        show ¬ a < now - 20
        omega
      by_cases hr : ls < now - probe_delay
      · simp [tick, hs, hc, hr, state_tag, pib_start_time?]
      · simp [tick, hs, hc, hr, state_tag, pib_start_time?]
  | WritePIB a ls off pib =>
    rw [hs] at hst
    simp only [pib_start_time?, Option.some.injEq] at hst
    subst hst
    constructor
    · intro h
      have h' : a + 20 < now := h
      have hc : a < now - pib_abort_time := by
        show a < now - 20
        omega
      simp [tick, hs, hc]
    · intro h
      have h' : now ≤ a + 20 := h
      have hc : ¬ a < now - pib_abort_time := by
        show ¬ a < now - 20
        omega
      by_cases hr : ls < now - probe_delay
      · simp [tick, hs, hc, hr, state_tag, pib_start_time?]
      · simp [tick, hs, hc, hr, state_tag, pib_start_time?]
  | WritePIBToNVM a ls =>
    rw [hs] at hst
    simp only [pib_start_time?, Option.some.injEq] at hst
    subst hst
    constructor
    · intro h
      have h' : a + 20 < now := h
      have hc : a < now - pib_abort_time := by
        show a < now - 20
        omega
      simp [tick, hs, hc]
    · intro h
      have h' : now ≤ a + 20 := h
      have hc : ¬ a < now - pib_abort_time := by
        show ¬ a < now - 20
        omega
      by_cases hr : ls < now - probe_delay
      · simp [tick, hs, hc, hr, state_tag, pib_start_time?]
      · simp [tick, hs, hc, hr, state_tag, pib_start_time?]

/-- C6 witness: a device in ReadPIB with `start_time = 0` at tick time
21 (one past the 20 s abort time) resets; at tick time 20 it stays in
ReadPIB. -/
theorem C6_witness :
    ((tick { initDevice ("aa") with state := .ReadPIB 0 0 [1, 2, 3] } 21).1 =
      reset_state { initDevice ("aa") with state := .ReadPIB 0 0 [1, 2, 3] } ∧
      (tick { initDevice ("aa") with state := .ReadPIB 0 0 [1, 2, 3] } 21).2 = []) ∧
    (state_tag (tick { initDevice ("aa") with
        state := .ReadPIB 0 0 [1, 2, 3] } 20).1.state =
      state_tag (DState.ReadPIB 0 0 [1, 2, 3]) ∧
      pib_start_time? (tick { initDevice ("aa") with
        state := .ReadPIB 0 0 [1, 2, 3] } 20).1.state = some 0) :=
  ⟨(C6_pib_timeout { initDevice ("aa") with state := .ReadPIB 0 0 [1, 2, 3] }
      21 0 (by decide)).1 (by decide),
    (C6_pib_timeout { initDevice ("aa") with state := .ReadPIB 0 0 [1, 2, 3] }
      20 0 (by decide)).2 (by decide)⟩

/-! ### Claim C5: probing escalation to ProbingHP -/

/-- Tick times each strictly more than `probe_delay` after the previous
probe send; the accumulator starts at the state's `last_sent`. -/
def spacedB : Nat → List Nat → Bool
  | _, [] => true
  | prev, t :: ts => decide (prev + probe_delay < t) && spacedB t ts

lemma runTicks_cons (d : Device) (t : Nat) (ts : List Nat) :
    runTicks d (t :: ts) = runTicks (tick d t).1 ts := by
  simp [runTicks, runTicksMsgs]

/-- Once in ProbingHP, ticks keep the machine in ProbingHP. -/
lemma runTicks_probingHP {d : Device} {ls : Nat} (h : d.state = .ProbingHP ls)
    (ts : List Nat) :
    ∃ ls2, (runTicks d ts).state = .ProbingHP ls2 := by
  induction ts generalizing d ls with
  | nil => exact ⟨ls, by simp [runTicks, runTicksMsgs, h]⟩
  | cons t ts ih =>
    rw [runTicks_cons]
    by_cases hf : ls < t - probe_delay
    · have h1 : (tick d t).1.state = .ProbingHP t := by simp [tick, h, hf]
      exact ih h1
    · have h1 : (tick d t).1.state = .ProbingHP ls := by simp [tick, h, hf]
      exact ih h1

/-- From Probing, enough well-spaced ticks reach ProbingHP. -/
lemma probing_to_hp {d : Device} {ls n : Nat} (ts : List Nat)
    (hst : d.state = .Probing ls n) (hsp : spacedB ls ts = true)
    (hlen1 : 1 ≤ ts.length) (hlen : max_probing_tries + 1 - n ≤ ts.length) :
    ∃ ls2, (runTicks d ts).state = .ProbingHP ls2 := by
  induction ts generalizing d ls n with
  | nil => simp at hlen1
  | cons t ts ih =>
    simp only [spacedB, Bool.and_eq_true, decide_eq_true_eq] at hsp
    obtain ⟨hgap, hsp'⟩ := hsp
    have hfire : ls < t - probe_delay := by
      show ls < t - 10
      have hgap' : ls + 10 < t := hgap
      omega
    rw [runTicks_cons]
    by_cases hn : max_probing_tries ≤ n
    · have h1 : (tick d t).1.state = .ProbingHP t := by
        simp [tick, hst, hfire, hn]
      exact runTicks_probingHP h1 ts
    · rcases ts with _ | ⟨t2, ts'⟩
      · exfalso
        have hn' : n < 5 := by
          simpa [max_probing_tries] using hn
        have : max_probing_tries + 1 - n ≤ 1 := hlen
        simp [max_probing_tries] at this
        omega
      · have h1 : (tick d t).1.state = .Probing t (n + 1) := by
          simp [tick, hst, hfire, hn]
        exact ih h1 hsp' (by simp)
          (by
            have h6 : max_probing_tries + 1 - n ≤ (t :: t2 :: ts').length := hlen
            simp [max_probing_tries] at h6 ⊢
            omega)

/-- C5 (amended): from the initial Probing state, any sequence of at
least `max_probing_tries + 1` (six) ticks, each strictly more than
`probe_delay` after the previous probe send and with no inbound frame,
leaves the machine in ProbingHP. -/
theorem C5_probing_reaches_hp (rm : String) (ts : List Nat)
    (hsp : spacedB 0 ts = true) (hlen : max_probing_tries + 1 ≤ ts.length) :
    ∃ ls, (runTicks (initDevice rm) ts).state = .ProbingHP ls :=
  probing_to_hp ts rfl hsp (by omega) (by omega)

/-- Recognizer for the ProbingHP state. -/
def is_probing_hp : DState → Bool
  | .ProbingHP _ => true
  | _ => false

/-- C5 counterexample: after exactly `max_probing_tries` (five) ticks
with no reply — whether spaced exactly `probe_delay` (10 s) apart or far
wider — the machine is still in Probing, not ProbingHP.  (With exact
10 s spacing the strict `last_sent < now - probe_delay` test fires only
on every other tick, so five ticks yield three probes; even with wide
spacing the transition happens on the sixth probe, not the fifth.) -/
theorem C5_counterexample :
    is_probing_hp (runTicks (initDevice ("cx")) [100, 110, 120, 130, 140]).state
      = false ∧
    (runTicks (initDevice ("cx")) [100, 110, 120, 130, 140]).state =
      .Probing 140 3 ∧
    is_probing_hp (runTicks (initDevice ("cx")) [100, 200, 300, 400, 500]).state
      = false ∧
    (runTicks (initDevice ("cx")) [100, 200, 300, 400, 500]).state =
      .Probing 500 5 := by
  decide

/-- C5 witness: six ticks at 11-second spacing from the initial state. -/
theorem C5_witness :
    spacedB 0 [11, 22, 33, 44, 55, 66] = true ∧
    ∃ ls, (runTicks (initDevice ("wx")) [11, 22, 33, 44, 55, 66]).state =
      .ProbingHP ls :=
  ⟨by decide, C5_probing_reaches_hp ("wx") [11, 22, 33, 44, 55, 66]
    (by decide) (by decide)⟩

/-! ### Claim C9: no on/off frames when the target is already met -/

/-- Invariant preserved by ticks: the device is in a vendor-frame state
(Probing, ProbingHP or Running — the only states reachable by ticks from
Running), and while Running its `want_on` is either clear or equal to
the observed `device_is_on`. -/
def no_onoff_inv (d : Device) : Prop :=
  ether_state d.state = true ∧
  (∀ ls lr, d.state = .Running ls lr →
    d.want_on = none ∨ d.want_on = d.device_is_on)

lemma tick_no_onoff {d : Device} (h : no_onoff_inv d) (t : Nat) :
    no_onoff_inv (tick d t).1 ∧
    Msg.etherOn ∉ (tick d t).2 ∧ Msg.etherOff ∉ (tick d t).2 := by
  obtain ⟨hok, hw⟩ := h
  cases hs : d.state with
  | ReadPIB a b c => rw [hs] at hok; simp [ether_state] at hok
  | WritePIB a b c e => rw [hs] at hok; simp [ether_state] at hok
  | WritePIBToNVM a b => rw [hs] at hok; simp [ether_state] at hok
  | Probing ls n =>
    refine ⟨⟨?_, ?_⟩, ?_, ?_⟩ <;>
      by_cases hf : ls < t - probe_delay <;>
      by_cases hn : max_probing_tries ≤ n <;>
      simp [tick, hs, hf, hn, no_onoff_inv, ether_state]
  | ProbingHP ls =>
    refine ⟨⟨?_, ?_⟩, ?_, ?_⟩ <;>
      by_cases hf : ls < t - probe_delay <;>
      simp [tick, hs, hf, no_onoff_inv, ether_state]
  | Running ls lr =>
    have hww := hw ls lr hs
    have hcond : ¬ (d.device_is_on ≠ d.want_on ∧ d.want_on ≠ none) := by
      rcases hww with h1 | h2
      · intro hc
        exact hc.2 h1
      · intro hc
        exact hc.1 h2.symm
    cases hi : d.interval with
    | none =>
      refine ⟨⟨?_, ?_⟩, ?_, ?_⟩
      · simp [tick, hs, hcond, hi, ether_state]
      · intro ls' lr' hEq
        simp only [tick, hs, hcond, hi] at hEq ⊢
        simp at hEq ⊢
        exact hww
      · simp [tick, hs, hcond, hi]
      · simp [tick, hs, hcond, hi]
    | some i =>
      by_cases ha : running_abort_time < t - lr
      · refine ⟨⟨?_, ?_⟩, ?_, ?_⟩ <;>
          simp [tick, hs, hcond, hi, ha, reset_state, ether_state]
      · by_cases hp : ls < t - i
        · refine ⟨⟨?_, ?_⟩, ?_, ?_⟩
          · simp [tick, hs, hcond, hi, ha, hp, ether_state]
          · intro ls' lr' hEq
            simp only [tick, hs, hcond, hi, ha, hp] at hEq ⊢
            simp at hEq ⊢
            exact hww
          · simp [tick, hs, hcond, hi, ha, hp]
          · simp [tick, hs, hcond, hi, ha, hp]
        · refine ⟨⟨?_, ?_⟩, ?_, ?_⟩
          · simp [tick, hs, hcond, hi, ha, hp, ether_state]
          · intro ls' lr' hEq
            simp only [tick, hs, hcond, hi, ha, hp] at hEq ⊢
            simp at hEq ⊢
            exact hww
          · simp [tick, hs, hcond, hi, ha, hp]
          · simp [tick, hs, hcond, hi, ha, hp]

lemma runTicksMsgs_no_onoff {d : Device} (h : no_onoff_inv d) (ts : List Nat) :
    Msg.etherOn ∉ (runTicksMsgs d ts).2 ∧ Msg.etherOff ∉ (runTicksMsgs d ts).2 := by
  induction ts generalizing d with
  | nil => simp [runTicksMsgs]
  | cons t ts ih =>
    obtain ⟨hinv, hOn, hOff⟩ := tick_no_onoff h t
    obtain ⟨ihOn, ihOff⟩ := ih hinv
    have hunfold : (runTicksMsgs d (t :: ts)).2 =
        (tick d t).2 ++ (runTicksMsgs (tick d t).1 ts).2 := by
      simp [runTicksMsgs]
    rw [hunfold]
    constructor
    · rw [List.mem_append]
      rintro (h1 | h1)
      · exact hOn h1
      · exact ihOn h1
    · rw [List.mem_append]
      rintro (h1 | h1)
      · exact hOff h1
      · exact ihOff h1

/-- C9: a device in Running whose `want_on` target equals the observed
`is_on` never emits a vendor on or off frame over any sequence of ticks;
and whenever `is_on` is observed to match `want_on`
(`receive_is_on`/`receive_is_off`), `want_on` is cleared to `none`. -/
theorem C9_wanton_reconciliation :
    (∀ (d : Device) (ls lr : Nat) (b : Bool) (ts : List Nat),
      d.state = .Running ls lr → d.want_on = some b → d.device_is_on = some b →
      Msg.etherOn ∉ (runTicksMsgs d ts).2 ∧
      Msg.etherOff ∉ (runTicksMsgs d ts).2) ∧
    (∀ d : Device, d.want_on = some true →
      (receive_is_on d).want_on = none ∧ (receive_is_on d).device_is_on = some true) ∧
    (∀ d : Device, d.want_on = some false →
      (receive_is_off d).want_on = none ∧ (receive_is_off d).device_is_on = some false) := by
  refine ⟨?_, ?_, ?_⟩
  · intro d ls lr b ts hst hwant hison
    apply runTicksMsgs_no_onoff
    refine ⟨by simp [hst, ether_state], ?_⟩
    intro ls' lr' _
    right
    rw [hwant, hison]
  · intro d h
    simp [receive_is_on, h]
  · intro d h
    simp [receive_is_off, h]

/-- A concrete Running device whose target equals its observed status. -/
def dC9 : Device := { initDevice ("aa") with
  state := .Running 3 4
  want_on := some true
  device_is_on := some true
  interval := some 5 }

/-- C9 witness: the theorem applied to `dC9` over two ticks, plus the
`want_on` clearing on `receive_is_on`. -/
theorem C9_witness :
    (Msg.etherOn ∉ (runTicksMsgs dC9 [15, 30]).2 ∧
      Msg.etherOff ∉ (runTicksMsgs dC9 [15, 30]).2) ∧
    (receive_is_on dC9).want_on = none ∧
    (receive_is_on dC9).device_is_on = some true :=
  ⟨C9_wanton_reconciliation.1 dC9 3 4 true [15, 30] rfl rfl rfl,
    C9_wanton_reconciliation.2.1 dC9 rfl⟩

/-! ### Claim C8: identity mismatch handling -/

/-- C8 (amended): once the identity fields (type, version,
identification tuple) have been observed non-null, a well-parsed power
report that disagrees with any of them makes `receive_powerdata` fail
its hard assertion: the handler raises (`none`) — terminating the
exchange with an exception — and in particular does NOT reset the
device state. -/
theorem C8_identity_mismatch_raises (d : Device) (s : String)
    (ty : String) (ison : Bool) (pw : String) (tup : Ident) (ver : Ver)
    (hp : parse_powerdata s = some (ty, ison, pw, tup, ver))
    (ht : d.device_type ≠ none) (hv : d.device_version ≠ none)
    (hu : d.device_unknown_tuple ≠ none)
    (hmis : d.device_unknown_tuple ≠ some tup ∨ d.device_version ≠ some ver ∨
      d.device_type ≠ some ty) :
    receive_powerdata d s = none := by
  unfold receive_powerdata
  rw [hp]
  simp only [if_neg hu, if_neg hv, if_neg ht]
  rcases hmis with h | h | h
  · rw [if_pos h]
  · by_cases h1 : d.device_unknown_tuple ≠ some tup
    · rw [if_pos h1]
    · rw [if_neg h1, if_pos h]
  · by_cases h1 : d.device_unknown_tuple ≠ some tup
    · rw [if_pos h1]
    · by_cases h2 : d.device_version ≠ some ver
      · rw [if_neg h1, if_pos h2]
      · rw [if_neg h1, if_neg h2, if_pos h]

/-- A device that has already observed a full identity (a blue device). -/
def dC8 : Device := { initDevice ("aa") with
  state := .Running 1 2
  want_on := some true
  device_type := some ("2")
  device_version := some (.blue ("v") ("w"))
  device_unknown_tuple := some (.blue ("a") ("b") ("c"))
  device_power := some ("5.0")
  device_is_on := some true }

/-- C8 counterexample: a well-formed white-device report disagreeing
with `dC8`'s observed identity makes `receive_powerdata` raise (`none`)
— the device state is not reset to Probing with power/is_on cleared (no
state is returned at all): the handler aborts instead. -/
theorem C8_counterexample :
    dC8.device_type = some ("2") ∧
    parse_powerdata ("3;x;y;1;9.9") =
      some (("3"), true, ("9.9"), .white ("x"), .white ("y")) ∧
    receive_powerdata dC8 ("3;x;y;1;9.9") = none ∧
    receive_powerdata dC8 ("3;x;y;1;9.9") ≠ some (reset_state dC8) := by
  refine ⟨by decide, by decide, by decide, ?_⟩
  intro h
  rw [show receive_powerdata dC8 ("3;x;y;1;9.9") = none by decide] at h
  exact Option.noConfusion h

/-- C8 witness: the amended theorem applied to `dC8` and the mismatching
report. -/
theorem C8_witness : receive_powerdata dC8 ("3;x;y;1;9.9") = none :=
  C8_identity_mismatch_raises dC8 ("3;x;y;1;9.9") ("3") true ("9.9")
    (.white ("x")) (.white ("y")) (by decide) (by decide) (by decide) (by decide)
    (Or.inl (by decide))

/-! ### Shared evaluation lemmas for the HomePlug handler -/

/-- With a read-confirm state, action 0xa025 and status byte 0, the
handler reaches its read-confirmation tail. -/
lemma packet_homeplug_read_gates {d : Device} (now : Nat) (server_mac : List Nat)
    (rest : List Nat) (hrc : read_confirm_state d.state = true) :
    packet_homeplug d now server_mac 0xa025 (0 :: rest) =
      hp_read_confirm d now server_mac (0 :: rest) := by
  cases hs : d.state <;> rw [hs] at hrc <;>
    simp_all [packet_homeplug, hp_state, read_confirm_state, write_pib_state,
      write_nvm_state]

lemma hp_read_confirm_module {d : Device} (now : Nat) (server_mac data : List Nat)
    (hlen : 12 ≤ data.length) (hmod : data.getD 4 0 ≠ 2) :
    hp_read_confirm d now server_mac data = some d := by
  simp only [hp_read_confirm]
  rw [if_neg (by omega), if_pos hmod]

lemma hp_read_confirm_cksum {d : Device} (now : Nat) (server_mac data : List Nat)
    (ck : Nat) (hlen : 12 ≤ data.length) (hmod : data.getD 4 0 = 2)
    (hck : calc_cksum (data.drop 12) = some ck) (hck0 : ck ≠ 0) :
    hp_read_confirm d now server_mac data = some d := by
  simp only [hp_read_confirm]
  rw [if_neg (by omega), if_neg (by simpa [List.getD_eq_getElem?_getD] using hmod), hck]
  simp [hck0]

lemma hp_read_confirm_offset {d : Device} (now : Nat) (server_mac data : List Nat)
    {st ls : Nat} {pib : List Nat} (hs : d.state = .ReadPIB st ls pib)
    (hlen : 12 ≤ data.length) (hmod : data.getD 4 0 = 2)
    (hck : calc_cksum (data.drop 12) = some 0)
    (hoff : le32 (data.getD 8 0) (data.getD 9 0) (data.getD 10 0) (data.getD 11 0)
      ≠ pib.length) :
    hp_read_confirm d now server_mac data = some d := by
  simp only [hp_read_confirm]
  rw [if_neg (by omega), if_neg (by simpa [List.getD_eq_getElem?_getD] using hmod), hck]
  simp only [Option.some.injEq]
  rw [hs]
  simp
  simp only [List.getD_eq_getElem?_getD] at hoff
  intro hoff'
  exact absurd hoff' hoff

/-- Reaching the ReadPIB append in the read-confirmation tail: with a
correct module, chunk checksum and contiguous offset, the handler's
remaining behaviour is the append/complete case analysis. -/
lemma hp_read_confirm_readpib {d : Device} (now : Nat) (server_mac data : List Nat)
    {st ls : Nat} {pib : List Nat} (hs : d.state = .ReadPIB st ls pib)
    (hlen : 12 ≤ data.length) (hmod : data.getD 4 0 = 2)
    (hck : calc_cksum (data.drop 12) = some 0)
    (hoff : le32 (data.getD 8 0) (data.getD 9 0) (data.getD 10 0) (data.getD 11 0)
      = pib.length) :
    hp_read_confirm d now server_mac data =
      (mkPIB (pib ++ (data.drop 16).take (le16 (data.getD 6 0) (data.getD 7 0)))).bind
        (fun newpib =>
          if is_complete newpib then
            match is_valid newpib with
            | none => none
            | some false => some (reset_state d)
            | some true =>
                if master_get newpib = server_mac then some (reset_state d)
                else (master_replace newpib server_mac).map fun wp =>
                  { d with state := .WritePIB now 0 0 wp }
          else some { d with state := .ReadPIB st 0 newpib }) := by
  simp only [hp_read_confirm]
  rw [if_neg (by omega), if_neg (by simpa [List.getD_eq_getElem?_getD] using hmod), hck]
  rw [hs]
  simp only [List.getD_eq_getElem?_getD] at hoff ⊢
  simp [hoff]

/-! ### Claim C7: invalid frames are dropped (with a raise caveat) -/

/-- C7 (amended): every inbound frame that fails one of the device
handlers' explicit validation checks — unsupported state for the
framing, unexpected opcode for the current state, nonzero status, wrong
module, bad chunk checksum, non-contiguous read offset, or (for vendor
frames) a bad length header — is silently dropped: the handler returns
normally with the device unchanged.  Frames malformed below these checks
(e.g. an empty confirmation body) raise instead — see the
counterexample. -/
theorem C7_invalid_frames_dropped :
    (∀ (d : Device) (now : Nat) (server_mac : List Nat) (action : Nat)
      (data : List Nat), hp_state d.state = false →
      packet_homeplug d now server_mac action data = some d) ∧
    (∀ (d : Device) (now : Nat) (server_mac : List Nat) (action : Nat)
      (data : List Nat),
      (read_confirm_state d.state = true ∧ action ≠ 0xa025) ∨
      (write_pib_state d.state = true ∧ action ≠ 0xa021) ∨
      (write_nvm_state d.state = true ∧ action ≠ 0xa029) →
      packet_homeplug d now server_mac action data = some d) ∧
    (∀ (d : Device) (now : Nat) (server_mac : List Nat) (action s0 : Nat)
      (rest : List Nat), s0 ≠ 0 →
      packet_homeplug d now server_mac action (s0 :: rest) = some d) ∧
    (∀ (d : Device) (now : Nat) (server_mac : List Nat) (rest : List Nat),
      read_confirm_state d.state = true → 12 ≤ (0 :: rest).length →
      (0 :: rest).getD 4 0 ≠ 2 →
      packet_homeplug d now server_mac 0xa025 (0 :: rest) = some d) ∧
    (∀ (d : Device) (now : Nat) (server_mac : List Nat) (rest : List Nat)
      (ck : Nat),
      read_confirm_state d.state = true → 12 ≤ (0 :: rest).length →
      (0 :: rest).getD 4 0 = 2 → calc_cksum ((0 :: rest).drop 12) = some ck →
      ck ≠ 0 →
      packet_homeplug d now server_mac 0xa025 (0 :: rest) = some d) ∧
    (∀ (d : Device) (now : Nat) (server_mac : List Nat) (rest : List Nat)
      (st ls : Nat) (pib : List Nat),
      d.state = .ReadPIB st ls pib → 12 ≤ (0 :: rest).length →
      (0 :: rest).getD 4 0 = 2 → calc_cksum ((0 :: rest).drop 12) = some 0 →
      le32 ((0 :: rest).getD 8 0) ((0 :: rest).getD 9 0) ((0 :: rest).getD 10 0)
        ((0 :: rest).getD 11 0) ≠ pib.length →
      packet_homeplug d now server_mac 0xa025 (0 :: rest) = some d) ∧
    (∀ (d : Device) (now : Nat) (data : List Nat),
      data.length < 4 ∨ ether_state d.state = false ∨
      (data.drop 2).length ≠ data.getD 1 0 ∨ data.getD 1 0 % 64 ≠ 0 →
      packet_ether d now data = some d) := by
  refine ⟨?_, ?_, ?_, ?_, ?_, ?_, ?_⟩
  · intro d now server_mac action data h
    simp [packet_homeplug, h]
  · intro d now server_mac action data h
    cases hs : d.state <;>
      rcases h with ⟨h1, h2⟩ | ⟨h1, h2⟩ | ⟨h1, h2⟩ <;>
      rw [hs] at h1 <;>
      simp_all [packet_homeplug, hp_state, read_confirm_state, write_pib_state,
        write_nvm_state]
  · intro d now server_mac action s0 rest h
    unfold packet_homeplug
    split
    · rfl
    split
    · rfl
    split
    · rfl
    split
    · rfl
    simp [h]
  · intro d now server_mac rest h1 hlen hmod
    rw [packet_homeplug_read_gates now server_mac rest h1]
    exact hp_read_confirm_module now server_mac (0 :: rest) hlen hmod
  · intro d now server_mac rest ck h1 hlen hmod hck hck0
    rw [packet_homeplug_read_gates now server_mac rest h1]
    exact hp_read_confirm_cksum now server_mac (0 :: rest) ck hlen hmod hck hck0
  · intro d now server_mac rest st ls pib hs hlen hmod hck hoff
    rw [packet_homeplug_read_gates now server_mac rest (by rw [hs]; rfl)]
    exact hp_read_confirm_offset now server_mac (0 :: rest) hs hlen hmod hck hoff
  · intro d now data h
    simp only [packet_ether]
    by_cases h1 : data.length < 4
    · rw [if_pos h1]
    · rw [if_neg h1]
      by_cases h2 : ether_state d.state = false
      · rw [if_pos h2]
      · rw [if_neg h2]
        by_cases h3 : (data.drop 2).length ≠ data.getD 1 0
        · rw [if_pos h3]
        · rw [if_neg h3]
          have h4 : data.getD 1 0 % 64 ≠ 0 := by
            rcases h with h | h | h | h
            · exact absurd h h1
            · exact absurd h h2
            · exact absurd h h3
            · exact h
          rw [if_pos h4]

/-- C7 counterexample: in ProbingHP an action-0xa025 confirmation with
an EMPTY body — a "bad length" frame — raises `struct.error` (`none`)
instead of being silently dropped. -/
theorem C7_counterexample :
    packet_homeplug { initDevice ("aa") with state := .ProbingHP 0 } 100
      [1, 2, 3, 4, 5, 6] 0xa025 [] = none := by decide

/-- A ProbingHP device used by the C7 witness. -/
def dC7w : Device := { initDevice ("aa") with state := .ProbingHP 0 }

/-- C7 witness: the amended theorem applied to concrete dropped frames —
wrong opcode, nonzero status, wrong module, and a too-short vendor
frame. -/
theorem C7_witness :
    packet_homeplug dC7w 5 [] 0xa020 [0] = some dC7w ∧
    packet_homeplug dC7w 5 [] 0xa025 [1] = some dC7w ∧
    packet_homeplug dC7w 5 [] 0xa025 [0, 0, 0, 0, 9, 0, 0, 0, 0, 0, 0, 0] =
      some dC7w ∧
    packet_ether dC7w 5 [0, 0, 0] = some dC7w :=
  ⟨C7_invalid_frames_dropped.2.1 dC7w 5 [] 0xa020 [0]
      (Or.inl ⟨rfl, by decide⟩),
    C7_invalid_frames_dropped.2.2.1 dC7w 5 [] 0xa025 1 [] (by decide),
    C7_invalid_frames_dropped.2.2.2.1 dC7w 5 []
      [0, 0, 0, 9, 0, 0, 0, 0, 0, 0, 0] rfl (by decide) (by decide),
    C7_invalid_frames_dropped.2.2.2.2.2.2 dC7w 5 [0, 0, 0]
      (Or.inl (by decide))⟩

/-! ### Claim C2: the ReadPIB read-confirmation transition -/

lemma mkPIB_eq_some {l r : List Nat} (h : mkPIB l = some r) :
    r = l ∧ 8 < l.length ∧ l.length ≤ pib_size l := by
  by_cases hc : 8 < l.length ∧ l.length ≤ pib_size l
  · rw [mkPIB, if_pos hc] at h
    exact ⟨(Option.some.inj h).symm, hc.1, hc.2⟩
  · rw [mkPIB, if_neg hc] at h
    exact Option.noConfusion h

lemma is_valid_true {l : List Nat} (h : is_valid l = some true) :
    calc_cksum l = some 0 := by
  unfold is_valid at h
  obtain ⟨c, hc, hceq⟩ := Option.map_eq_some'.mp h
  have hc0 : c = 0 := by simpa using hceq
  rw [hc0] at hc
  exact hc

/-- C2: in ReadPIB, a read confirmation (status 0, module 2, valid chunk
checksum) is accepted only at the offset equal to the current partial
PIB length — any other offset is dropped with the device unchanged.
When the appended chunk makes the PIB complete: (a) an invalid whole-PIB
checksum resets the device to Probing; (b) a master-MAC field already
equal to the controller's MAC resets the device; (c) otherwise the
device moves to `WritePIB{start_time = now, last_sent = 0,
current_offset = 0}` carrying `master_replace(controller_mac)` of the
downloaded PIB. -/
theorem C2_readpib_confirm (d : Device) (now : Nat) (server_mac : List Nat)
    (rest : List Nat) (st ls : Nat) (pib : List Nat)
    (hs : d.state = .ReadPIB st ls pib)
    (hlen : 12 ≤ (0 :: rest).length)
    (hmod : (0 :: rest).getD 4 0 = 2)
    (hck : calc_cksum ((0 :: rest).drop 12) = some 0) :
    (le32 ((0 :: rest).getD 8 0) ((0 :: rest).getD 9 0) ((0 :: rest).getD 10 0)
        ((0 :: rest).getD 11 0) ≠ pib.length →
      packet_homeplug d now server_mac 0xa025 (0 :: rest) = some d) ∧
    (∀ newpib,
      le32 ((0 :: rest).getD 8 0) ((0 :: rest).getD 9 0) ((0 :: rest).getD 10 0)
        ((0 :: rest).getD 11 0) = pib.length →
      mkPIB (pib ++ ((0 :: rest).drop 16).take
        (le16 ((0 :: rest).getD 6 0) ((0 :: rest).getD 7 0))) = some newpib →
      is_complete newpib = true →
      ((is_valid newpib = some false →
        packet_homeplug d now server_mac 0xa025 (0 :: rest) =
          some (reset_state d)) ∧
       (is_valid newpib = some true → master_get newpib = server_mac →
        packet_homeplug d now server_mac 0xa025 (0 :: rest) =
          some (reset_state d)) ∧
       (is_valid newpib = some true → master_get newpib ≠ server_mac →
        11408 ≤ newpib.length → server_mac.length = 6 →
        ∃ wp, master_replace newpib server_mac = some wp ∧
          packet_homeplug d now server_mac 0xa025 (0 :: rest) =
            some { d with state := .WritePIB now 0 0 wp }))) := by
  constructor
  · intro hoff
    rw [packet_homeplug_read_gates now server_mac rest (by rw [hs]; rfl)]
    exact hp_read_confirm_offset now server_mac (0 :: rest) hs hlen hmod hck hoff
  · intro newpib hoff hmk hcomp
    have hbase : packet_homeplug d now server_mac 0xa025 (0 :: rest) =
        (if is_complete newpib then
          match is_valid newpib with
          | none => none
          | some false => some (reset_state d)
          | some true =>
              if master_get newpib = server_mac then some (reset_state d)
              else (master_replace newpib server_mac).map fun wp =>
                { d with state := .WritePIB now 0 0 wp }
        else some { d with state := .ReadPIB st 0 newpib }) := by
      rw [packet_homeplug_read_gates now server_mac rest (by rw [hs]; rfl),
        hp_read_confirm_readpib now server_mac (0 :: rest) hs hlen hmod hck hoff,
        hmk, Option.some_bind]
    rw [if_pos hcomp] at hbase
    refine ⟨?_, ?_, ?_⟩
    · intro hval
      rw [hval] at hbase
      exact hbase
    · intro hval hmg
      have h2 : packet_homeplug d now server_mac 0xa025 (0 :: rest) =
          (if master_get newpib = server_mac then some (reset_state d)
           else (master_replace newpib server_mac).map fun wp =>
             { d with state := .WritePIB now 0 0 wp }) := by
        rw [hval] at hbase
        exact hbase
      rw [if_pos hmg] at h2
      exact h2
    · intro hval hmg hnp hmac
      have h2 : packet_homeplug d now server_mac 0xa025 (0 :: rest) =
          (master_replace newpib server_mac).map fun wp =>
            { d with state := .WritePIB now 0 0 wp } := by
        rw [hval] at hbase
        have h3 : packet_homeplug d now server_mac 0xa025 (0 :: rest) =
            (if master_get newpib = server_mac then some (reset_state d)
             else (master_replace newpib server_mac).map fun wp =>
               { d with state := .WritePIB now 0 0 wp }) := hbase
        rw [if_neg hmg] at h3
        exact h3
      have h4 : newpib.length % 4 = 0 := by
        obtain ⟨f, hf, _⟩ := Option.map_eq_some'.mp (is_valid_true hval)
        exact xorFold_length hf
      obtain ⟨heq, h8, hszl⟩ := mkPIB_eq_some hmk
      have hsz : newpib.length ≤ pib_size newpib := by rw [heq]; exact hszl
      obtain ⟨wp, hwp, _, _, _⟩ :=
        master_replace_spec newpib server_mac h4 hnp hsz hmac
      refine ⟨wp, hwp, ?_⟩
      rw [hwp] at h2
      simpa using h2

/-- The first 10384 bytes of `testPIB`, as a partial PIB mid-download. -/
def partC2 : List Nat :=
  [0, 0, 0, 0, 144, 44, 0, 0, 111, 211, 255, 255] ++ List.replicate 10372 0

/-- The body of a read confirmation after its status byte: pad, module 2,
pad, length 1024 LE, offset 10384 LE, chunk checksum `0xFFFFFFFF`
(the checksum of 1024 zero bytes), then the 1024 zero chunk bytes. -/
def restC2 : List Nat :=
  [0, 0, 0, 2, 0, 0, 4, 144, 40, 0, 0, 255, 255, 255, 255] ++
    List.replicate 1024 0

lemma partC2_length : partC2.length = 10384 := by
  unfold partC2
  rw [List.length_append, List.length_replicate]
  rfl

lemma restC2_length : restC2.length = 1039 := by
  unfold restC2
  rw [List.length_append, List.length_replicate]
  rfl

lemma dataC2_drop12 : (0 :: restC2).drop 12 =
    [255, 255, 255, 255] ++ List.replicate 1024 0 := by
  unfold restC2
  rfl

lemma dataC2_cksum : calc_cksum ((0 :: restC2).drop 12) = some 0 := by
  rw [dataC2_drop12]
  have h1 : xorFold [255, 255, 255, 255] = some 4294967295 := by decide
  have h2 : xorFold (List.replicate 1024 0) = some 0 := by
    have h := xorFold_replicate_zero 256
    norm_num at h
    exact h
  have h3 := xorFold_append h1 h2
  rw [Nat.xor_zero] at h3
  unfold calc_cksum
  rw [h3, Option.map_some', Nat.xor_self]

lemma dataC2_chunk : ((0 :: restC2).drop 16).take
    (le16 ((0 :: restC2).getD 6 0) ((0 :: restC2).getD 7 0)) =
    List.replicate 1024 0 := by
  have hd : (0 :: restC2).drop 16 = List.replicate 1024 0 := by
    unfold restC2
    rfl
  have hl : le16 ((0 :: restC2).getD 6 0) ((0 :: restC2).getD 7 0) = 1024 := by
    unfold restC2
    rfl
  rw [hd, hl, List.take_replicate]
  rfl

lemma partC2_append_chunk : partC2 ++ List.replicate 1024 0 = testPIB := by
  unfold partC2 testPIB
  rw [List.append_assoc, ← List.replicate_add]

lemma mkPIB_testPIB : mkPIB testPIB = some testPIB := by
  unfold mkPIB
  rw [if_pos]
  rw [testPIB_length, testPIB_size]
  norm_num

lemma master_get_testPIB : master_get testPIB = [0, 0, 0, 0, 0, 0] := by
  unfold master_get testPIB
  rw [List.drop_append_eq_append_drop, List.drop_replicate,
    List.drop_eq_nil_of_le (by norm_num)]
  norm_num
  decide

/-- The mid-download device for the C2 witness. -/
def dC2w : Device := { initDevice ("aa") with state := .ReadPIB 50 0 partC2 }

/-- C2 witness: the theorem's case (c) at a concrete confirmation that
completes `testPIB`, whose master field (all zeroes) differs from the
controller MAC `01:02:03:04:05:06`: the device moves to
`WritePIB{start_time = 60, last_sent = 0, current_offset = 0}` carrying
the rewritten PIB. -/
theorem C2_witness :
    ∃ wp, master_replace testPIB [1, 2, 3, 4, 5, 6] = some wp ∧
      packet_homeplug dC2w 60 [1, 2, 3, 4, 5, 6] 0xa025 (0 :: restC2) =
        some { dC2w with state := .WritePIB 60 0 0 wp } :=
  ((C2_readpib_confirm dC2w 60 [1, 2, 3, 4, 5, 6] restC2 50 0 partC2 rfl
      (by rw [List.length_cons, restC2_length]; omega)
      (by unfold restC2; rfl)
      dataC2_cksum).2
    testPIB
    (by rw [partC2_length]; unfold restC2; rfl)
    (by rw [dataC2_chunk, partC2_append_chunk]; exact mkPIB_testPIB)
    testPIB_complete).2.2
    testPIB_valid
    (by rw [master_get_testPIB]; decide)
    (by rw [testPIB_length])
    (by decide)
